import Mathlib

/-!
Verification development for the simulated cloud upload pipeline
(`src/main.py`): API Gateway → S3 → Lambda → DynamoDB, all local.

The Python source is shallowly embedded: byte sequences are `List Nat`
(each element < 256 in practice), the simulated S3 bucket and the local
filesystem are association lists from path strings to byte contents, and
the simulated DynamoDB JSON file is a small inductive (`DBFile`) that can
be missing, corrupt, or a parsed list of records.  External collaborators
from the Python standard library (`hashlib.sha256`, `mimetypes.guess_type`,
`datetime.utcnow`, `json.dumps`) are modelled explicitly below, each with a
doc comment saying what it models.
-/

namespace CloudSim

/-! ## SHA-256 (model of Python's `hashlib.sha256`)

`hashlib.sha256` is the C implementation of FIPS 180-4 SHA-256; it is not
part of this repository, so it is modelled here in full: 32-bit words are
`Nat` taken modulo `2 ^ 32`, messages are byte lists, and the incremental
`update` interface buffers bytes and compresses full 64-byte blocks, exactly
as the streaming loop in `_sha256` relies on. -/

/-- `2 ^ 32`, the word modulus of SHA-256. -/
def M32 : Nat := 4294967296

/-- Right rotation of a 32-bit word (argument assumed `< M32`, `0 < n < 32`). -/
def rotr (n w : Nat) : Nat := ((w >>> n) ||| (w <<< (32 - n))) % M32

/-- Bitwise complement of a 32-bit word. -/
def wnot (w : Nat) : Nat := w ^^^ 4294967295

/-- SHA-256 choice function. -/
def ch (e f g : Nat) : Nat := (e &&& f) ^^^ (wnot e &&& g)

/-- SHA-256 majority function. -/
def maj (a b c : Nat) : Nat := (a &&& b) ^^^ (a &&& c) ^^^ (b &&& c)

/-- SHA-256 big sigma 0. -/
def bigSigma0 (x : Nat) : Nat := rotr 2 x ^^^ rotr 13 x ^^^ rotr 22 x

/-- SHA-256 big sigma 1. -/
def bigSigma1 (x : Nat) : Nat := rotr 6 x ^^^ rotr 11 x ^^^ rotr 25 x

/-- SHA-256 small sigma 0. -/
def smallSigma0 (x : Nat) : Nat := rotr 7 x ^^^ rotr 18 x ^^^ (x >>> 3)

/-- SHA-256 small sigma 1. -/
def smallSigma1 (x : Nat) : Nat := rotr 17 x ^^^ rotr 19 x ^^^ (x >>> 10)

/-- The 64 SHA-256 round constants. -/
def K256 : List Nat :=
  [1116352408, 1899447441, 3049323471, 3921009573, 961987163,
   1508970993, 2453635748, 2870763221, 3624381080, 310598401,
   607225278, 1426881987, 1925078388, 2162078206, 2614888103,
   3248222580, 3835390401, 4022224774, 264347078, 604807628,
   770255983, 1249150122, 1555081692, 1996064986, 2554220882,
   2821834349, 2952996808, 3210313671, 3336571891, 3584528711,
   113926993, 338241895, 666307205, 773529912, 1294757372,
   1396182291, 1695183700, 1986661051, 2177026350, 2456956037,
   2730485921, 2820302411, 3259730800, 3345764771, 3516065817,
   3600352804, 4094571909, 275423344, 430227734, 506948616,
   659060556, 883997877, 958139571, 1322822218, 1537002063,
   1747873779, 1955562222, 2024104815, 2227730452, 2361852424,
   2428436474, 2756734187, 3204031479, 3329325298]

/-- The SHA-256 initial hash value. -/
def H256 : List Nat :=
  [1779033703, 3144134277, 1013904242,
   2773480762, 1359893119, 2600822924,
   528734635, 1541459225]

/-- Convert a byte list to big-endian 32-bit words (4 bytes per word). -/
def bytesToWords : List Nat → List Nat
  | b0 :: b1 :: b2 :: b3 :: rest =>
      (b0 * 16777216 + b1 * 65536 + b2 * 256 + b3) :: bytesToWords rest
  | _ => []

/-- Extend the 16 block words by `k` further schedule words. -/
def extendSchedule : Nat → List Nat → List Nat
  | 0, ws => ws
  | k + 1, ws =>
      let n := ws.length
      let w := (smallSigma1 (ws.getD (n - 2) 0) + ws.getD (n - 7) 0 +
                smallSigma0 (ws.getD (n - 15) 0) + ws.getD (n - 16) 0) % M32
      extendSchedule k (ws ++ [w])

/-- The 64-word message schedule of one 64-byte block. -/
def msgSchedule (block : List Nat) : List Nat :=
  extendSchedule 48 (bytesToWords block)

/-- One SHA-256 round on the 8-word working state. -/
def roundStep (st : List Nat) (wk : Nat × Nat) : List Nat :=
  match st with
  | [a, b, c, d, e, f, g, h] =>
      let t1 := (h + bigSigma1 e + ch e f g + wk.2 + wk.1) % M32
      let t2 := (bigSigma0 a + maj a b c) % M32
      [(t1 + t2) % M32, a, b, c, (d + t1) % M32, e, f, g]
  | other => other

/-- SHA-256 compression of one 64-byte block into the chaining value. -/
def compress (hs : List Nat) (block : List Nat) : List Nat :=
  let final := List.foldl roundStep hs ((msgSchedule block).zip K256)
  List.zipWith (fun x y => (x + y) % M32) hs final

/-- Fueled block absorption: compress consecutive full 64-byte blocks from
the front of `buf` while fuel lasts. -/
def absorbGo : Nat → List Nat → List Nat → List Nat × List Nat
  | 0, hs, buf => (hs, buf)
  | fuel + 1, hs, buf =>
      if 64 ≤ buf.length then
        absorbGo fuel (compress hs (buf.take 64)) (buf.drop 64)
      else
        (hs, buf)

/-- Compress consecutive full 64-byte blocks from the front of `buf`,
returning the new chaining value and the remaining (< 64 byte) tail.
`buf.length` steps of fuel always suffice since each step consumes
64 bytes. -/
def absorbBlocks (hs : List Nat) (buf : List Nat) : List Nat × List Nat :=
  absorbGo buf.length hs buf

/-- Big-endian 8-byte encoding of a (64-bit) natural number. -/
def beBytes8 (n : Nat) : List Nat :=
  [n >>> 56 % 256, n >>> 48 % 256, n >>> 40 % 256, n >>> 32 % 256,
   n >>> 24 % 256, n >>> 16 % 256, n >>> 8 % 256, n % 256]

/-- SHA-256 padding for a message of `len` bytes: `0x80`, zeros up to 56 mod
64, then the bit length as 8 big-endian bytes. -/
def sha256Padding (len : Nat) : List Nat :=
  128 :: List.replicate ((119 - len % 64) % 64) 0 ++ beBytes8 (8 * len % 18446744073709551616)

/-- Big-endian 4-byte encoding of a 32-bit word. -/
def wordBE4 (w : Nat) : List Nat :=
  [w >>> 24 % 256, w >>> 16 % 256, w >>> 8 % 256, w % 256]

/-- Serialize the 8-word chaining value as 32 digest bytes. -/
def hashToBytes (hs : List Nat) : List Nat := (hs.map wordBE4).flatten

/-- Reference one-shot SHA-256 of a whole byte sequence: pad the full
message, then compress its 64-byte blocks in order. -/
def sha256Bytes (msg : List Nat) : List Nat :=
  hashToBytes (absorbBlocks H256 (msg ++ sha256Padding msg.length)).1

/-- Incremental SHA-256 state: chaining value, buffered partial block,
and total number of bytes fed so far.  Models a `hashlib.sha256()` object. -/
structure Sha256Ctx where
  hv : List Nat
  buf : List Nat
  total : Nat
deriving DecidableEq

/-- Fresh incremental SHA-256 state (`hashlib.sha256()`). -/
def sha256Init : Sha256Ctx := ⟨H256, [], 0⟩

/-- Incremental `update`: append the new bytes to the buffer and compress
all full 64-byte blocks. -/
def sha256Update (c : Sha256Ctx) (data : List Nat) : Sha256Ctx :=
  let p := absorbBlocks c.hv (c.buf ++ data)
  ⟨p.1, p.2, c.total + data.length⟩

/-- Incremental finalization: pad what is buffered using the total length
fed, compress, and serialize the digest bytes. -/
def sha256FinalBytes (c : Sha256Ctx) : List Nat :=
  hashToBytes (absorbBlocks c.hv (c.buf ++ sha256Padding c.total)).1

/-- A lowercase hex digit character. -/
def hexDigit (n : Nat) : Char :=
  if n < 10 then Char.ofNat (48 + n) else Char.ofNat (87 + n)

/-- Two lowercase hex characters of one byte. -/
def byteHex (b : Nat) : List Char := [hexDigit (b / 16), hexDigit (b % 16)]

/-- Lowercase hex string of a byte list (`hexdigest` formatting). -/
def bytesToHex (bs : List Nat) : String := String.mk ((bs.map byteHex).flatten)

/-- Fueled chunking of a byte list into consecutive chunks of `n` bytes. -/
def chunksGo : Nat → Nat → List Nat → List (List Nat)
  | 0, _, _ => []
  | fuel + 1, n, l =>
      if l = [] ∨ n = 0 then []
      else l.take n :: chunksGo fuel n (l.drop n)

/-- Split a byte list into consecutive chunks of `n` bytes (last chunk may
be shorter); empty input or `n = 0` gives no chunks.  Models the
`iter(lambda: f.read(8192), b"")` loop structure of `_sha256`. -/
def chunksOf (n : Nat) (l : List Nat) : List (List Nat) :=
  chunksGo l.length n l

/-- Embedding of `_sha256` from `src/main.py`: stream the content in
8192-byte chunks through an incremental SHA-256 and return the lowercase
hex digest. -/
def pySha256Hex (content : List Nat) : String :=
  bytesToHex (sha256FinalBytes (List.foldl sha256Update sha256Init (chunksOf 8192 content)))

/-- Streaming SHA-256 hex digest with an arbitrary chunk size `n`. -/
def sha256StreamHex (n : Nat) (content : List Nat) : String :=
  bytesToHex (sha256FinalBytes (List.foldl sha256Update sha256Init (chunksOf n content)))

/-- Reference SHA-256 lowercase hex digest of a whole byte sequence. -/
def sha256RefHex (content : List Nat) : String := bytesToHex (sha256Bytes content)

/-! ## Text decoding and line counting

Models `open(path, "r", encoding="utf-8", errors="ignore")` followed by
`sum(1 for _ in f)` in `_count_lines_if_text`: UTF-8 decoding that skips
malformed sequences, universal-newline translation (`\r\n` and `\r` both
read as `\n`), and counting the lines yielded by text-mode iteration (a
final segment without a terminator still counts as a line). -/

/-- A UTF-8 continuation byte (`0x80`–`0xBF`). -/
def isCont (b : Nat) : Bool := 128 ≤ b && b < 192

/-- Lower bound (inclusive) on the second byte of a 3-byte sequence. -/
def cont3Lo (b : Nat) : Nat := if b = 224 then 160 else 128

/-- Upper bound (exclusive) on the second byte of a 3-byte sequence. -/
def cont3Hi (b : Nat) : Nat := if b = 237 then 160 else 192

/-- Lower bound (inclusive) on the second byte of a 4-byte sequence. -/
def cont4Lo (b : Nat) : Nat := if b = 240 then 144 else 128

/-- Upper bound (exclusive) on the second byte of a 4-byte sequence. -/
def cont4Hi (b : Nat) : Nat := if b = 244 then 144 else 192

/-- Fueled UTF-8 decoding with `errors="ignore"` (every recursive call is on
a strictly shorter list, so `length` fuel suffices). -/
def utf8Go : Nat → List Nat → List Nat
  | 0, _ => []
  | fuel + 1, l =>
      match l with
      | [] => []
      | b :: rest =>
          if b < 128 then b :: utf8Go fuel rest
          else if b < 194 then utf8Go fuel rest
          else if b < 224 then
            match rest with
            | [] => []
            | c1 :: r =>
                if isCont c1 then ((b - 192) * 64 + (c1 - 128)) :: utf8Go fuel r
                else utf8Go fuel rest
          else if b < 240 then
            match rest with
            | [] => []
            | c1 :: r =>
                if cont3Lo b ≤ c1 && c1 < cont3Hi b then
                  match r with
                  | [] => []
                  | c2 :: r2 =>
                      if isCont c2 then
                        ((b - 224) * 4096 + (c1 - 128) * 64 + (c2 - 128)) :: utf8Go fuel r2
                      else utf8Go fuel r
                else utf8Go fuel rest
          else if b < 245 then
            match rest with
            | [] => []
            | c1 :: r =>
                if cont4Lo b ≤ c1 && c1 < cont4Hi b then
                  match r with
                  | [] => []
                  | c2 :: r2 =>
                      if isCont c2 then
                        match r2 with
                        | [] => []
                        | c3 :: r3 =>
                            if isCont c3 then
                              ((b - 240) * 262144 + (c1 - 128) * 4096 + (c2 - 128) * 64 + (c3 - 128)) ::
                                utf8Go fuel r3
                            else utf8Go fuel r2
                      else utf8Go fuel r
                else utf8Go fuel rest
          else utf8Go fuel rest

/-- Model of CPython's UTF-8 decoder with `errors="ignore"`: decode bytes to
code points, skipping the maximal invalid subpart of any malformed sequence
and dropping a truncated sequence at end of input.  Newline bytes (`0x0A`,
`0x0D`) are never continuation bytes, so they always survive decoding. -/
def utf8DecodeIgnore (l : List Nat) : List Nat := utf8Go l.length l

/-- Universal-newline translation performed by text-mode reading with the
default `newline=None`: `\r\n` and lone `\r` both become `\n`. -/
def translateNewlines : List Nat → List Nat
  | [] => []
  | 13 :: 10 :: r => 10 :: translateNewlines r
  | 13 :: r => 10 :: translateNewlines r
  | c :: r => c :: translateNewlines r

/-- Count the lines yielded by text-mode iteration over the translated code
points: every `\n` closes a line, and a pending unterminated final segment
counts as one more line at end of input. -/
def countLinesAux : Bool → List Nat → Nat
  | pending, [] => if pending then 1 else 0
  | _, 10 :: r => 1 + countLinesAux false r
  | _, _ :: r => countLinesAux true r

/-- Embedding of the line count computed by `_count_lines_if_text` when the
object is text-like: decode UTF-8 ignoring errors, translate newlines, count
lines yielded by iteration. -/
def pyCountLines (content : List Nat) : Nat :=
  countLinesAux false (translateNewlines (utf8DecodeIgnore content))

/-- Number of newline-terminated segments of the decoded content: one per
(translated) newline character. -/
def newlineSegments (content : List Nat) : Nat :=
  (translateNewlines (utf8DecodeIgnore content)).count 10

/-- One extra line when the decoded, translated content ends in a character
other than a newline (an unterminated final segment); zero when the content
is empty or newline-terminated. -/
def trailingLineBit (content : List Nat) : Nat :=
  if (translateNewlines (utf8DecodeIgnore content)).getLastD 10 = 10 then 0 else 1

/-! ## Strings and paths -/

/-- Model of Python `str.startswith`. -/
def strStartsWith (s pre : String) : Bool := pre.data.isPrefixOf s.data

/-- ASCII lowercasing of one character (model of `str.lower` restricted to
the ASCII range, which is all that file extensions here use). -/
def lowerChar (c : Char) : Char :=
  if 'A' ≤ c ∧ c ≤ 'Z' then Char.ofNat (c.toNat + 32) else c

/-- Model of Python `str.lower` (ASCII range). -/
def lowerString (s : String) : String := String.mk (s.data.map lowerChar)

/-- Model of `pathlib.PurePath.name`: the part after the last `/`. -/
def pyName (s : String) : String :=
  String.mk ((s.data.reverse.takeWhile (fun c => c ≠ '/')).reverse)

/-- Model of `pathlib.PurePath.suffix`: the extension of the final
component, from its last dot, empty when the dot is leading, trailing or
absent. -/
def pySuffix (s : String) : String :=
  let name := (s.data.reverse.takeWhile (fun c => c ≠ '/')).reverse
  let afterRev := name.reverse.takeWhile (fun c => c ≠ '.')
  if afterRev.length < name.length then
    if 0 < name.length - afterRev.length - 1 ∧ 0 < afterRev.length then
      String.mk ('.' :: afterRev.reverse)
    else ""
  else ""

/-- The `TEXT_EXTS` allow-list from `src/main.py`. -/
def TEXT_EXTS : List String :=
  [".txt", ".md", ".py", ".json", ".csv", ".log", ".ini", ".cfg"]

/-! ## JSON bodies

Every body string the program produces with `json.dumps` serializes a flat
dictionary whose values are strings, integers or `None`, so the model of
`json.dumps` is over exactly those shapes.  (The `indent=2` of the metadata
body only changes whitespace and is not modelled.) -/

/-- A primitive JSON value: `None`, an integer, or a string. -/
inductive JVal where
  | null : JVal
  | num : Nat → JVal
  | str : String → JVal
deriving DecidableEq

/-- A flat JSON object: an ordered list of key/value pairs. -/
abbrev JObj : Type := List (String × JVal)

/-- Hex digit characters of a 4-digit escape. -/
def hex4 (n : Nat) : List Char :=
  [hexDigit (n / 4096 % 16), hexDigit (n / 256 % 16), hexDigit (n / 16 % 16), hexDigit (n % 16)]

/-- Model of `json.dumps` string escaping (`ensure_ascii` default): quote and
backslash get a backslash escape, the common control characters get their
short escapes, all other control or non-ASCII characters a `\uXXXX` escape
(code points beyond the BMP are out of scope for this program's data). -/
def escChar (c : Char) : List Char :=
  if c = '"' then ['\\', '"']
  else if c = '\\' then ['\\', '\\']
  else if c.toNat = 10 then ['\\', 'n']
  else if c.toNat = 13 then ['\\', 'r']
  else if c.toNat = 9 then ['\\', 't']
  else if c.toNat = 8 then ['\\', 'b']
  else if c.toNat = 12 then ['\\', 'f']
  else if c.toNat < 32 ∨ 126 < c.toNat then '\\' :: 'u' :: hex4 (c.toNat % 65536)
  else [c]

/-- A JSON string literal with its quotes. -/
def dumpStr (s : String) : List Char :=
  '"' :: (s.data.map escChar).flatten ++ ['"']

/-- One primitive JSON value. -/
def dumpJVal : JVal → List Char
  | .null => ['n', 'u', 'l', 'l']
  | .num n => (toString n).data
  | .str s => dumpStr s

/-- The `"key": value` entries of a flat object, separated by `", "`
(Python's default separators). -/
def dumpFields : JObj → List Char
  | [] => []
  | [(k, v)] => dumpStr k ++ ':' :: ' ' :: dumpJVal v
  | (k, v) :: rest => dumpStr k ++ ':' :: ' ' :: dumpJVal v ++ ',' :: ' ' :: dumpFields rest

/-- Model of Python `json.dumps` on a flat dictionary. -/
def jsonDumps (o : JObj) : String :=
  String.mk (Char.ofNat 123 :: dumpFields o ++ [Char.ofNat 125])

/-- Whether a string is the serialization of some flat JSON object. -/
def isSerializedJObj (s : String) : Prop := ∃ o : JObj, jsonDumps o = s

/-! ## Trigger events

`lambda_file_analyzer` receives a Python dict and extracts
`event["Records"][0]["s3"]["object"]["key"]` inside a `try`.  Events are
modelled as dynamically-typed Python values; every subscripting failure
raises inside the `try` and is caught, while a chain that succeeds with a
non-string key escapes the `try` and later raises uncaught. -/

/-- A dynamically-typed Python value, as far as trigger events need. -/
inductive PyVal where
  | none : PyVal
  | num : Nat → PyVal
  | str : String → PyVal
  | list : List PyVal → PyVal
  | dict : List (String × PyVal) → PyVal

/-- `v[k]` for a string subscript: a dict lookup; anything else raises
(caught by the surrounding `try`, hence `Option.none`). -/
def pySubscrStr (v : PyVal) (k : String) : Option PyVal :=
  match v with
  | .dict fields => List.lookup k fields
  | _ => Option.none

/-- `v[i]` for an integer subscript: list indexing, or 1-character string
indexing; anything else raises (caught, hence `Option.none`). -/
def pySubscrNat (v : PyVal) (i : Nat) : Option PyVal :=
  match v with
  | .list xs => xs.get? i
  | .str s => (s.data.get? i).map (fun c => PyVal.str (String.mk [c]))
  | _ => Option.none

/-- The subscript chain `event["Records"][0]["s3"]["object"]["key"]`,
`Option.none` when any step raises. -/
def extractRecordKey (e : PyVal) : Option PyVal :=
  ((((pySubscrStr e "Records").bind (fun v => pySubscrNat v 0)).bind
      (fun v => pySubscrStr v "s3")).bind
      (fun v => pySubscrStr v "object")).bind
      (fun v => pySubscrStr v "key")

/-- The S3 trigger event `api_upload` constructs for a key. -/
def mkEvent (key : String) : PyVal :=
  let objectDict := PyVal.dict [("key", PyVal.str key)]
  let s3Dict := PyVal.dict [("object", objectDict)]
  let recordDict := PyVal.dict [("s3", s3Dict)]
  PyVal.dict [("Records", PyVal.list [recordDict])]

/-! ## Data model and state -/

/-- The metadata dictionary built by `lambda_file_analyzer`, with the field
names of the record-store JSON schema. -/
structure AnalysisRecord where
  filename : String
  size_bytes : Nat
  mime_type : String
  sha256 : String
  line_count : Option Nat
  processed_utc : String
  status : String
deriving DecidableEq

/-- The record as the flat JSON object `json.dumps` serializes (field order
as in the source). -/
def recordToJObj (r : AnalysisRecord) : JObj :=
  [("filename", .str r.filename),
   ("size_bytes", .num r.size_bytes),
   ("mime_type", .str r.mime_type),
   ("sha256", .str r.sha256),
   ("line_count", match r.line_count with | some n => .num n | Option.none => .null),
   ("processed_utc", .str r.processed_utc),
   ("status", .str r.status)]

/-- The record-store states the pipeline model tracks: absent, present but
unreadable or unparseable, or a parsed list of records.  These are exactly
the states on which the program's append path cannot raise: the full state
space — which also holds a file whose text parses to a JSON value that is
not an array, on which `items.append` raises — is `DbFileContent` below. -/
inductive DBFile where
  | missing : DBFile
  | corrupt : DBFile
  | ok : List AnalysisRecord → DBFile
deriving DecidableEq

/-- Embedding of `read_db` on `DBFile`: parse the file, and per the bare
`except`, treat a missing or unparseable file as the empty list.  (The bare
`except` does not cover a file parsing to a non-array JSON value; that state
is handled by `readDbFull` below.) -/
def readDb : DBFile → List AnalysisRecord
  | .ok items => items
  | _ => []

/-- Embedding of `write_db`: serialize the full list back. -/
def writeDb (items : List AnalysisRecord) : DBFile := .ok items

/-- The full state space of the record-store file (used by C7): unlike
`DBFile`, it distinguishes a file whose text is valid JSON but not an array
(for example `"\x7b\x7d"`, an empty object), which `read_db`'s bare `except`
does not turn into `[]`.  Array elements are opaque to the append path
(read, `.append`, dump the whole list), so they are modelled as records. -/
inductive DbFileContent where
  | missing : DbFileContent
  | unparseable : DbFileContent
  | jsonNonArray : DbFileContent
  | jsonArray : List AnalysisRecord → DbFileContent
deriving DecidableEq

/-- The Python value `read_db` returns: a list, or a JSON value that has no
`append` attribute (dict, string, number, ...). -/
inductive PyJsonValue where
  | arr : List AnalysisRecord → PyJsonValue
  | nonArr : PyJsonValue
deriving DecidableEq

/-- Embedding of `read_db` over the full state space: the bare `except`
turns a missing or unparseable file into `[]`, but a parseable non-array
value is returned as-is (no exception was raised). -/
def readDbFull : DbFileContent → PyJsonValue
  | .jsonArray items => .arr items
  | .jsonNonArray => .nonArr
  | .missing => .arr []
  | .unparseable => .arr []

/-- Python `items.append(item)`: succeeds on a list, raises an uncaught
`AttributeError` on any other JSON value. -/
def pyAppend (v : PyJsonValue) (item : AnalysisRecord) : Except String (List AnalysisRecord) :=
  match v with
  | .arr items => .ok (items ++ [item])
  | .nonArr => .error "AttributeError: object has no attribute append"

/-- Embedding of `dynamodb_put_item` over the full state space: read the
whole value, append (which raises, uncaught, on a non-array), dump the list
back. -/
def dynamodbPutItemFull (item : AnalysisRecord) (db : DbFileContent) :
    Except String DbFileContent :=
  (pyAppend (readDbFull db) item).map (fun items => DbFileContent.jsonArray items)

/-- The record list `read_db` effectively yields on the states where the
append path cannot raise. -/
def readListD : DbFileContent → List AnalysisRecord
  | .jsonArray items => items
  | _ => []

/-- The collapse of a non-raising full state into the pipeline model's
`DBFile`. -/
def toDBFile : DbFileContent → DBFile
  | .missing => .missing
  | .unparseable => .corrupt
  | .jsonNonArray => .corrupt
  | .jsonArray items => .ok items

/-- An association-list store of byte contents by string key (used both for
the simulated S3 uploads directory and for the local source filesystem). -/
abbrev Store : Type := List (String × List Nat)

/-- Read the bytes at a key, if present. -/
def storeGet (m : Store) (k : String) : Option (List Nat) := List.lookup k m

/-- Write bytes at a key, overwriting an existing entry (last write wins). -/
def storePut (m : Store) (k : String) (v : List Nat) : Store :=
  match m with
  | [] => [(k, v)]
  | (k', v') :: rest => if k' = k then (k, v) :: rest else (k', v') :: storePut rest k v

/-- The mutable world the program touches: the uploads directory and the
DynamoDB mock file, plus a step counter driving the modelled clock.  The log
file is write-only and never read back by the pipeline, so it is not part of
the state. -/
structure SimState where
  s3 : Store
  db : DBFile
  clock : Nat
deriving DecidableEq

/-- External collaborators of the pipeline: `mimetypes.guess_type` as a pure
function of the path's name, and `datetime.utcnow().isoformat(...)` as a
function of the step counter. -/
structure Env where
  mimeGuess : String → Option String
  clock : Nat → String

/-- Embedding of the pipeline-state part of `ensure_dirs`: create the DB
file with `[]` when missing.  Directory creation touches nothing the
pipeline reads; the seeding of the sample source file acts on the local
source filesystem and is modelled by `ensureFs`, composed with this in
`apiUpload`. -/
def ensureDirs (st : SimState) : SimState :=
  { st with db := match st.db with | .missing => .ok [] | d => d }

/-- The path string of the seeded sample file, standing for
`str(SAMPLES_DIR / "example.txt")` (paths are opaque strings here). -/
def samplePath : String := "sample_files/example.txt"

/-- The fixed bytes `ensure_dirs` writes into the sample file when it is
missing (src/main.py lines 42-47). -/
def sampleContent : List Nat :=
  ("Hello from example.txt\nThis is a sample text file.\nLine 3.\n").data.map Char.toNat

/-- The source-filesystem part of `ensure_dirs`: seed the sample file with
its fixed content when it is missing; never overwrite an existing one. -/
def ensureFs (fs : Store) : Store :=
  match storeGet fs samplePath with
  | some _ => fs
  | Option.none => storePut fs samplePath sampleContent

/-- Embedding of `s3_put_object`: `ensure_dirs`, then write the source bytes
verbatim at `uploads/<key>`. -/
def s3PutObject (st : SimState) (content : List Nat) (key : String) : SimState :=
  let st1 := ensureDirs st
  { st1 with s3 := storePut st1.s3 key content }

/-- Embedding of `dynamodb_put_item`: read the whole list (corrupt → empty),
append, write the whole list back. -/
def dynamodbPutItem (item : AnalysisRecord) (db : DBFile) : DBFile :=
  writeDb (readDb db ++ [item])

/-- Embedding of `mime = mime or "application/octet-stream"`: Python `or`
replaces a `None` or empty-string guess by the generic binary type. -/
def pyOr (m : Option String) : String :=
  match m with
  | some s => if s = "" then "application/octet-stream" else s
  | Option.none => "application/octet-stream"

/-- Embedding of `_looks_like_text`: the (defaulted) content type starts
with `text/`, or the lowercased extension is in the allow-list. -/
def looksLikeText (key : String) (mime : String) : Bool :=
  ((mime != "") && strStartsWith mime "text/") ||
    TEXT_EXTS.contains (lowerString (pySuffix key))

/-- Embedding of `_count_lines_if_text`: `none` for non-text objects, else
the text-mode line count (the `except` branch is unreachable in the model
because decoding with `errors="ignore"` never fails). -/
def countLinesIfText (content : List Nat) (isText : Bool) : Option Nat :=
  if isText then some (pyCountLines content) else Option.none

/-- The `Lambda` result envelope: a status code and a body string. -/
structure Response where
  statusCode : Nat
  body : String
deriving DecidableEq

/-- The metadata record `lambda_file_analyzer` builds for a stored object
(`clk` is the step counter at the `utcnow` call). -/
def mkRecord (env : Env) (clk : Nat) (key : String) (content : List Nat) : AnalysisRecord :=
  let mime := pyOr (env.mimeGuess key)
  let isText := looksLikeText key mime
  { filename := key
    size_bytes := content.length
    mime_type := mime
    sha256 := pySha256Hex content
    line_count := countLinesIfText content isText
    processed_utc := env.clock clk ++ "Z"
    status := "Processed" }

/-- Embedding of `lambda_file_analyzer`.  `Except.error` marks an uncaught
Python exception: it occurs exactly when the subscript chain succeeds but
yields a non-string key, which raises a `TypeError` outside the `try` when
joined onto the uploads path. -/
def lambdaFileAnalyzer (env : Env) (event : PyVal) (st : SimState) :
    Except String (Response × SimState) :=
  match extractRecordKey event with
  | Option.none =>
      .ok ({ statusCode := 400, body := jsonDumps [("error", .str "Malformed event")] }, st)
  | some (.str key) =>
      match storeGet st.s3 key with
      | Option.none =>
          .ok ({ statusCode := 404,
                 body := jsonDumps [("error", .str "File not found"), ("key", .str key)] }, st)
      | some content =>
          let record := mkRecord env st.clock key content
          .ok ({ statusCode := 200, body := jsonDumps (recordToJObj record) },
               { st with db := dynamodbPutItem record st.db, clock := st.clock + 1 })
  | some _ => .error "TypeError: unsupported operand type for path join"

/-- Embedding of `api_upload`: `ensure_dirs` first — which may seed the
sample source file, so the existence check runs on the seeded filesystem —
then 400 with a plain-text body when the source is still missing, else put
the object under its base name and trigger the Lambda with the constructed
S3 event.  (`s3_put_object`'s own `ensure_dirs` call runs after this one,
when the sample file already exists, so its filesystem effect there is the
identity.) -/
def apiUpload (env : Env) (fs : Store) (localFile : String) (st : SimState) :
    Except String (Response × SimState) :=
  let fs1 := ensureFs fs
  let st1 := ensureDirs st
  match storeGet fs1 localFile with
  | Option.none =>
      .ok ({ statusCode := 400, body := "Local file not found: " ++ localFile }, st1)
  | some content =>
      let key := pyName localFile
      let st2 := s3PutObject st1 content key
      lambdaFileAnalyzer env (mkEvent key) st2

/-- Run a sequence of uploads, stopping on an uncaught fault. -/
def runUploads (env : Env) (fs : Store) : List String → SimState → SimState
  | [], st => st
  | p :: ps, st =>
      match apiUpload env fs p st with
      | .ok (_, st') => runUploads env fs ps st'
      | .error _ => st

/-- The records the uploads of `paths` should append, in call order: the
`i`-th is the analysis of the `i`-th source file under its base name, with
the clock advanced once per upload. -/
def expectedRecords (env : Env) (fs : Store) : List String → Nat → List AnalysisRecord
  | [], _ => []
  | p :: ps, clk =>
      mkRecord env clk (pyName p) ((storeGet fs p).getD []) :: expectedRecords env fs ps (clk + 1)

/-- Status code of a non-faulting pipeline result. -/
def resultCode (r : Except String (Response × SimState)) : Option Nat :=
  match r with
  | .ok (resp, _) => some resp.statusCode
  | .error _ => Option.none

/-- Body of a non-faulting pipeline result. -/
def resultBody (r : Except String (Response × SimState)) : Option String :=
  match r with
  | .ok (resp, _) => some resp.body
  | .error _ => Option.none

/-- Record-store contents after a non-faulting pipeline result. -/
def resultDb (r : Except String (Response × SimState)) : Option (List AnalysisRecord) :=
  match r with
  | .ok (_, st) => some (readDb st.db)
  | .error _ => Option.none

/-- Uploads-store contents after a non-faulting pipeline result. -/
def resultS3 (r : Except String (Response × SimState)) : Option Store :=
  match r with
  | .ok (_, st) => some st.s3
  | .error _ => Option.none

/-! ## Concrete environments and states for evaluation -/

/-- Modelled from the spec: `mimetypes.guess_type` — the Python standard
library's "standard extension-to-type mapping" (spec 4.1/4.3), not part of
`src/`.  The stdlib lowercases the extension before its table lookup; the
table is restricted here to the extensions this development exercises. -/
def pythonMimeGuess (name : String) : Option String :=
  let e := lowerString (pySuffix name)
  if e = ".txt" then some "text/plain"
  else if e = ".md" then some "text/markdown"
  else if e = ".py" then some "text/x-python"
  else if e = ".json" then some "application/json"
  else if e = ".csv" then some "text/csv"
  else if e = ".html" then some "text/html"
  else if e = ".png" then some "image/png"
  else if e = ".bin" then some "application/octet-stream"
  else Option.none

/-- Modelled from the spec: the UTC wall clock rendered by
`datetime.utcnow().isoformat(timespec="seconds")`, indexed by step count. -/
def demoClock (n : Nat) : String := "2025-01-01T00:00:0" ++ toString n

/-- A concrete environment with the modelled stdlib collaborators. -/
def envDemo : Env := ⟨pythonMimeGuess, demoClock⟩

/-- The bytes of `"abc"`. -/
def abcBytes : List Nat := [97, 98, 99]

/-- A store holding `a.txt ↦ "abc"` over an empty record store. -/
def stDemo : SimState := ⟨[("a.txt", abcBytes)], .ok [], 0⟩

/-- The claim C4's own text-like test, read literally: the guessed (and
defaulted) content type starts with `text/`, or the extension is literally
in the allow-list (no lowercasing). -/
def specTextLike (env : Env) (key : String) : Bool :=
  strStartsWith (pyOr (env.mimeGuess key)) "text/" || TEXT_EXTS.contains (pySuffix key)

/-- A store holding `a.txt ↦ "ab"` (no trailing newline). -/
def stAB : SimState := ⟨[("a.txt", [97, 98])], .ok [], 0⟩

/-- A store holding `A.JSON ↦ "a"` (uppercase extension). -/
def stAJ : SimState := ⟨[("A.JSON", [97])], .ok [], 0⟩

/-- A store holding `b.TXT ↦ "h\n"` (uppercase extension). -/
def stTXT : SimState := ⟨[("b.TXT", [104, 10])], .ok [], 0⟩

/-- A source filesystem with two files. -/
def fsDemo : Store := [("dir/a.txt", [104, 105, 10]), ("b.bin", [0, 255])]

/-- The empty initial state. -/
def stEmpty : SimState := ⟨[], .ok [], 0⟩

/-! ### Streaming-equals-one-shot lemmas -/

theorem absorbGo_of_lt (hs buf : List Nat) (h : buf.length < 64) :
    ∀ fuel, absorbGo fuel hs buf = (hs, buf)
  | 0 => rfl
  | fuel + 1 => by simp [absorbGo, Nat.not_le.mpr h]

theorem absorbBlocks_of_lt (hs buf : List Nat) (h : buf.length < 64) :
    absorbBlocks hs buf = (hs, buf) :=
  absorbGo_of_lt hs buf h buf.length

/-- Any fuel at least the buffer length computes the same absorption. -/
theorem absorbGo_congr (f1 f2 : Nat) (hs buf : List Nat)
    (h1 : buf.length ≤ f1) (h2 : buf.length ≤ f2) :
    absorbGo f1 hs buf = absorbGo f2 hs buf := by
  by_cases h64 : 64 ≤ buf.length
  · obtain ⟨m1, rfl⟩ : ∃ m, f1 = m + 1 := ⟨f1 - 1, by omega⟩
    obtain ⟨m2, rfl⟩ : ∃ m, f2 = m + 1 := ⟨f2 - 1, by omega⟩
    simp only [absorbGo, if_pos h64]
    exact absorbGo_congr m1 m2 (compress hs (buf.take 64)) (buf.drop 64)
      (by simp only [List.length_drop]; omega)
      (by simp only [List.length_drop]; omega)
  · rw [absorbGo_of_lt hs buf (Nat.not_le.mp h64), absorbGo_of_lt hs buf (Nat.not_le.mp h64)]
termination_by f1
decreasing_by omega

theorem absorbBlocks_of_le (hs buf : List Nat) (h : 64 ≤ buf.length) :
    absorbBlocks hs buf = absorbBlocks (compress hs (buf.take 64)) (buf.drop 64) := by
  unfold absorbBlocks
  obtain ⟨m, hm⟩ : ∃ m, buf.length = m + 1 := ⟨buf.length - 1, by omega⟩
  rw [hm]
  simp only [absorbGo, if_pos h]
  exact absorbGo_congr m (buf.drop 64).length (compress hs (buf.take 64)) (buf.drop 64)
    (by simp only [List.length_drop]; omega) (le_refl _)

/-- Absorbing `x ++ b` is absorbing `x`, then absorbing the remainder with
`b` appended: block boundaries are aligned from the start of the stream. -/
theorem absorbBlocks_append (x hs b : List Nat) :
    absorbBlocks hs (x ++ b) =
      absorbBlocks (absorbBlocks hs x).1 ((absorbBlocks hs x).2 ++ b) := by
  by_cases hlen : 64 ≤ x.length
  · have hxb : 64 ≤ (x ++ b).length := by
      simp only [List.length_append]; omega
    rw [absorbBlocks_of_le hs (x ++ b) hxb, absorbBlocks_of_le hs x hlen,
        List.take_append_of_le_length hlen, List.drop_append_of_le_length hlen]
    exact absorbBlocks_append (x.drop 64) (compress hs (x.take 64)) b
  · rw [absorbBlocks_of_lt hs x (Nat.not_le.mp hlen)]
termination_by x.length
decreasing_by simp only [List.length_drop]; omega

/-- Feeding one more chunk to an incrementally-updated state is the same as
feeding the concatenation in one `update`. -/
theorem sha256Update_append (c : Sha256Ctx) (a b : List Nat) :
    sha256Update (sha256Update c a) b = sha256Update c (a ++ b) := by
  unfold sha256Update
  rw [← absorbBlocks_append (c.buf ++ a) c.hv b]
  simp [List.append_assoc, List.length_append, Nat.add_assoc]

/-- Folding `update` over any list of chunks starting from one initial
`update` equals a single `update` on the concatenation. -/
theorem foldl_sha256Update (chunks : List (List Nat)) (a : List Nat) :
    List.foldl sha256Update (sha256Update sha256Init a) chunks =
      sha256Update sha256Init (a ++ chunks.flatten) := by
  induction chunks generalizing a with
  | nil => simp
  | cons cHd cTl ih =>
      simp only [List.foldl_cons, List.flatten_cons]
      rw [sha256Update_append, ih, List.append_assoc]

theorem chunksGo_flatten (fuel : Nat) : ∀ (n : Nat) (l : List Nat),
    0 < n → l.length ≤ fuel → (chunksGo fuel n l).flatten = l := by
  induction fuel with
  | zero =>
      intro n l _ hl
      have : l = [] := List.eq_nil_of_length_eq_zero (by omega)
      simp [this, chunksGo]
  | succ f ih =>
      intro n l hn hl
      by_cases hnil : l = []
      · simp [hnil, chunksGo]
      · have hcond : ¬(l = [] ∨ n = 0) := by
          rintro (h | h)
          · exact hnil h
          · omega
        simp only [chunksGo, if_neg hcond, List.flatten_cons]
        rw [ih n (l.drop n) hn (by simp only [List.length_drop]; omega)]
        exact List.take_append_drop n l

/-- Chunking and re-joining is the identity for a positive chunk size. -/
theorem chunksOf_flatten (n : Nat) (hn : 0 < n) (l : List Nat) :
    (chunksOf n l).flatten = l :=
  chunksGo_flatten l.length n l hn (le_refl _)

/-- Finalizing after a single `update` of the whole message gives the
reference one-shot digest. -/
theorem finalize_update (msg : List Nat) :
    sha256FinalBytes (sha256Update sha256Init msg) = sha256Bytes msg := by
  unfold sha256FinalBytes sha256Update sha256Init sha256Bytes
  simp only [List.nil_append, Nat.zero_add]
  rw [← absorbBlocks_append msg H256 (sha256Padding msg.length)]

theorem sha256FinalBytes_init : sha256FinalBytes sha256Init = sha256Bytes [] := by
  simp [sha256FinalBytes, sha256Init, sha256Bytes]

/-- Streaming the content through the incremental interface in chunks of any
positive size yields the reference one-shot digest. -/
theorem sha256StreamHex_eq (n : Nat) (hn : 0 < n) (content : List Nat) :
    sha256StreamHex n content = sha256RefHex content := by
  unfold sha256StreamHex sha256RefHex
  rcases hc : chunksOf n content with _ | ⟨cHd, cTl⟩
  · have hnil : content = [] := by
      have := chunksOf_flatten n hn content
      rw [hc] at this
      simpa using this.symm
    subst hnil
    simp only [List.foldl_nil]
    rw [sha256FinalBytes_init]
  · have hjoin : cHd ++ cTl.flatten = content := by
      have := chunksOf_flatten n hn content
      rwa [hc, List.flatten_cons] at this
    simp only [List.foldl_cons]
    rw [foldl_sha256Update, hjoin, finalize_update]

/-- The embedded `_sha256` (8192-byte chunks) equals the reference digest. -/
theorem pySha256Hex_eq (content : List Nat) :
    pySha256Hex content = sha256RefHex content :=
  sha256StreamHex_eq 8192 (by omega) content

/-- FIPS 180-4 test vector: the digest of `"abc"`. -/
theorem sha256_test_vector :
    sha256RefHex [97, 98, 99] =
      "ba7816bf8f01cfea414140de5dae2223b00361a396177a9cb410ff61f20015ad" := by
  decide

theorem countLinesAux_eq (t : List Nat) : ∀ p : Bool,
    countLinesAux p t = t.count 10 + (if t.getLastD (cond p 0 10) = 10 then 0 else 1) := by
  induction t with
  | nil =>
      intro p
      cases p <;> simp [countLinesAux]
  | cons c r ih =>
      intro p
      by_cases hc : c = 10
      · subst hc
        have h1 : countLinesAux p (10 :: r) = 1 + countLinesAux false r := by
          cases p <;> simp [countLinesAux]
        rw [h1, ih false, List.getLastD_cons, List.count_cons]
        simp only [cond]
        simp
        omega
      · have h1 : countLinesAux p (c :: r) = countLinesAux true r := by
          cases p <;> · rw [countLinesAux.eq_def]
                        simp [hc]
        rw [h1, ih true, List.getLastD_cons, List.count_cons]
        have hco : ((c == 10) : Bool) = false := by
          simp [hc]
        simp only [cond, hco, if_false, Nat.add_zero]
        rcases r with _ | ⟨x, xs⟩
        · simp [List.getLastD, hc]
        · simp only [List.getLastD_eq_getLast?]
          obtain ⟨g, hg⟩ : ∃ g, (x :: xs).getLast? = some g :=
            ⟨(x :: xs).getLast (by simp), List.getLast?_eq_getLast _ (by simp)⟩
          rw [hg]
          simp

/-- The code's line count is the number of newline-terminated segments plus
one for an unterminated final segment. -/
theorem pyCountLines_eq (content : List Nat) :
    pyCountLines content = newlineSegments content + trailingLineBit content := by
  unfold pyCountLines newlineSegments trailingLineBit
  rw [countLinesAux_eq]
  rfl

/-- Every serialized JSON object starts with an opening brace. -/
theorem jsonDumps_head (o : JObj) : (jsonDumps o).data.head? = some (Char.ofNat 123) := rfl

/-! ## Helper lemmas about the embedded pipeline -/

theorem storeGet_storePut_self (m : Store) (k : String) (v : List Nat) :
    storeGet (storePut m k v) k = some v := by
  induction m with
  | nil => simp [storeGet, storePut, List.lookup]
  | cons kv rest ih =>
      obtain ⟨k', v'⟩ := kv
      by_cases hk : k' = k
      · subst hk
        simp [storeGet, storePut, List.lookup]
      · simp only [storePut, if_neg hk]
        have hbeq : (k == k') = false := by
          simp [BEq.beq]
          exact fun h => hk h.symm
        simpa [storeGet, List.lookup, hbeq] using ih

theorem storeGet_storePut_other (m : Store) (k : String) (v : List Nat) (p : String)
    (h : p ≠ k) : storeGet (storePut m k v) p = storeGet m p := by
  have hbeq : (p == k) = false := by
    simp only [beq_eq_false_iff_ne, ne_eq]
    exact h
  induction m with
  | nil => simp [storeGet, storePut, List.lookup, hbeq]
  | cons kv rest ih =>
      obtain ⟨k', v'⟩ := kv
      by_cases hk : k' = k
      · subst hk
        simp [storeGet, storePut, List.lookup, hbeq]
      · simp only [storePut, if_neg hk]
        simp only [storeGet, List.lookup] at ih ⊢
        cases hpk : (p == k') <;> simp [hpk, ih]

/-- Seeding the sample file preserves every present binding. -/
theorem ensureFs_some (fs : Store) (p : String) (c : List Nat)
    (hp : storeGet fs p = some c) : storeGet (ensureFs fs) p = some c := by
  unfold ensureFs
  cases hs : storeGet fs samplePath with
  | some w => exact hp
  | none =>
      have hne : p ≠ samplePath := by
        intro he
        rw [he, hs] at hp
        exact Option.noConfusion hp
      show storeGet (storePut fs samplePath sampleContent) p = some c
      rw [storeGet_storePut_other fs samplePath sampleContent p hne]
      exact hp

/-- A missing path other than the sample path is still missing after the
sample seeding. -/
theorem ensureFs_none (fs : Store) (p : String)
    (hp : storeGet fs p = Option.none) (hne : p ≠ samplePath) :
    storeGet (ensureFs fs) p = Option.none := by
  unfold ensureFs
  cases hs : storeGet fs samplePath with
  | some w => exact hp
  | none =>
      show storeGet (storePut fs samplePath sampleContent) p = Option.none
      rw [storeGet_storePut_other fs samplePath sampleContent p hne]
      exact hp

theorem readDb_ensureDirs (st : SimState) : readDb (ensureDirs st).db = readDb st.db := by
  unfold ensureDirs readDb
  cases st.db <;> rfl

/-- On the states where the append cannot raise, the full record-store model
agrees with the pipeline model's `dynamodbPutItem` under the collapse
`toDBFile` (`readDb (toDBFile db) = readListD db` there). -/
theorem putItemFull_agrees (db : DbFileContent) (r : AnalysisRecord)
    (hdb : db ≠ DbFileContent.jsonNonArray) :
    dynamodbPutItemFull r db = .ok (DbFileContent.jsonArray (readDb (toDBFile db) ++ [r])) := by
  cases db with
  | missing => rfl
  | unparseable => rfl
  | jsonNonArray => exact absurd rfl hdb
  | jsonArray items => rfl

theorem ensureDirs_s3 (st : SimState) : (ensureDirs st).s3 = st.s3 := rfl

theorem ensureDirs_clock (st : SimState) : (ensureDirs st).clock = st.clock := rfl

theorem extractRecordKey_mkEvent (key : String) :
    extractRecordKey (mkEvent key) = some (PyVal.str key) := rfl

/-- On a well-formed event, the Lambda reduces to the lookup on its key. -/
theorem lambdaFileAnalyzer_mkEvent (env : Env) (st : SimState) (key : String) :
    lambdaFileAnalyzer env (mkEvent key) st =
      (match storeGet st.s3 key with
       | Option.none =>
           Except.ok ({ statusCode := 404,
                        body := jsonDumps [("error", JVal.str "File not found"),
                                           ("key", JVal.str key)] }, st)
       | some content =>
           Except.ok ({ statusCode := 200,
                        body := jsonDumps (recordToJObj (mkRecord env st.clock key content)) },
                      { s3 := st.s3,
                        db := dynamodbPutItem (mkRecord env st.clock key content) st.db,
                        clock := st.clock + 1 })) := rfl

/-- On a stored key, `lambda_file_analyzer` returns 200 with the record in
the body and itself writes the appended record list to the store. -/
theorem lambdaSuccess (env : Env) (st : SimState) (key : String) (content : List Nat)
    (hk : storeGet st.s3 key = some content) :
    lambdaFileAnalyzer env (mkEvent key) st =
      .ok ({ statusCode := 200,
             body := jsonDumps (recordToJObj (mkRecord env st.clock key content)) },
           { s3 := st.s3,
             db := .ok (readDb st.db ++ [mkRecord env st.clock key content]),
             clock := st.clock + 1 }) := by
  rw [lambdaFileAnalyzer_mkEvent, hk]
  rfl

theorem lambdaNotFound (env : Env) (st : SimState) (key : String)
    (hk : storeGet st.s3 key = Option.none) :
    lambdaFileAnalyzer env (mkEvent key) st =
      .ok ({ statusCode := 404,
             body := jsonDumps [("error", .str "File not found"), ("key", .str key)] },
           st) := by
  rw [lambdaFileAnalyzer_mkEvent, hk]

theorem lambdaMalformed (env : Env) (ev : PyVal) (st : SimState)
    (hev : extractRecordKey ev = Option.none) :
    lambdaFileAnalyzer env ev st =
      .ok ({ statusCode := 400, body := jsonDumps [("error", .str "Malformed event")] }, st) := by
  unfold lambdaFileAnalyzer
  rw [hev]

theorem s3PutObject_s3 (st : SimState) (c : List Nat) (k : String) :
    (s3PutObject st c k).s3 = storePut st.s3 k c := rfl

theorem s3PutObject_clock (st : SimState) (c : List Nat) (k : String) :
    (s3PutObject st c k).clock = st.clock := rfl

theorem s3PutObject_db_read (st : SimState) (c : List Nat) (k : String) :
    readDb (s3PutObject st c k).db = readDb st.db :=
  readDb_ensureDirs st

/-- `api_upload` reduces to a lookup of the source path on the seeded
filesystem. -/
theorem apiUpload_eq (env : Env) (fs : Store) (p : String) (st : SimState) :
    apiUpload env fs p st =
      (match storeGet (ensureFs fs) p with
       | Option.none =>
           Except.ok ({ statusCode := 400, body := "Local file not found: " ++ p },
                      ensureDirs st)
       | some c =>
           lambdaFileAnalyzer env (mkEvent (pyName p)) (s3PutObject (ensureDirs st) c (pyName p))) :=
  rfl

/-- On an existing source file, `api_upload` stores the bytes under the base
name and returns the Lambda's 200 result, with the record store gaining
exactly the one record appended inside the Lambda. -/
theorem apiUploadSuccessEq (env : Env) (fs : Store) (p : String) (c : List Nat) (st : SimState)
    (hp : storeGet fs p = some c) :
    apiUpload env fs p st =
      .ok ({ statusCode := 200,
             body := jsonDumps (recordToJObj (mkRecord env st.clock (pyName p) c)) },
           { s3 := storePut st.s3 (pyName p) c,
             db := .ok (readDb st.db ++ [mkRecord env st.clock (pyName p) c]),
             clock := st.clock + 1 }) := by
  rw [apiUpload_eq, ensureFs_some fs p c hp]
  have h2 : storeGet (s3PutObject (ensureDirs st) c (pyName p)).s3 (pyName p) = some c := by
    rw [s3PutObject_s3, ensureDirs_s3]
    exact storeGet_storePut_self st.s3 (pyName p) c
  show lambdaFileAnalyzer env (mkEvent (pyName p)) (s3PutObject (ensureDirs st) c (pyName p)) = _
  rw [lambdaSuccess env (s3PutObject (ensureDirs st) c (pyName p)) (pyName p) c h2,
      s3PutObject_s3, ensureDirs_s3, s3PutObject_clock, ensureDirs_clock,
      s3PutObject_db_read, readDb_ensureDirs]

theorem apiUploadMissing (env : Env) (fs : Store) (p : String) (st : SimState)
    (hp : storeGet (ensureFs fs) p = Option.none) :
    apiUpload env fs p st =
      .ok ({ statusCode := 400, body := "Local file not found: " ++ p }, ensureDirs st) := by
  rw [apiUpload_eq, hp]

theorem pyOr_ne_empty (m : Option String) : pyOr m ≠ "" := by
  unfold pyOr
  match m with
  | Option.none => decide
  | some s =>
      by_cases hs : s = ""
      · simp [hs]
      · simp [hs]

theorem textExts_lower : ∀ s ∈ TEXT_EXTS, lowerString s = s := by
  intro s hs
  simp only [TEXT_EXTS, List.mem_cons, List.not_mem_nil, or_false] at hs
  rcases hs with rfl | rfl | rfl | rfl | rfl | rfl | rfl | rfl <;> rfl

theorem looksLikeText_iff (key mime : String) (hme : mime ≠ "") :
    looksLikeText key mime = true ↔
      (strStartsWith mime "text/" = true ∨ lowerString (pySuffix key) ∈ TEXT_EXTS) := by
  unfold looksLikeText
  have hbne : (mime != "") = true := by
    simp [bne, hme]
  rw [Bool.or_eq_true, Bool.and_eq_true]
  constructor
  · rintro (⟨-, h⟩ | h)
    · exact Or.inl h
    · exact Or.inr (by simpa [List.contains] using h)
  · rintro (h | h)
    · exact Or.inl ⟨hbne, h⟩
    · exact Or.inr (by simpa [List.contains] using h)

theorem expectedRecords_length (env : Env) (fs : Store) (paths : List String) :
    ∀ clk, (expectedRecords env fs paths clk).length = paths.length := by
  induction paths with
  | nil => intro clk; rfl
  | cons p ps ih =>
      intro clk
      simp [expectedRecords, ih (clk + 1)]

/-- Running uploads of existing sources appends exactly the expected records
in call order. -/
theorem runUploads_db (env : Env) (fs : Store) (paths : List String) : ∀ st : SimState,
    (∀ p ∈ paths, (storeGet fs p).isSome = true) →
    readDb (runUploads env fs paths st).db =
      readDb st.db ++ expectedRecords env fs paths st.clock := by
  induction paths with
  | nil =>
      intro st _
      simp [runUploads, expectedRecords]
  | cons p ps ih =>
      intro st h
      obtain ⟨c, hc⟩ : ∃ c, storeGet fs p = some c :=
        Option.isSome_iff_exists.mp (h p (by simp))
      rw [runUploads, apiUploadSuccessEq env fs p c st hc]
      rw [ih _ (fun q hq => h q (by simp [hq]))]
      simp [readDb, expectedRecords, hc, List.append_assoc]

theorem plainBody_head (p : String) :
    ("Local file not found: " ++ p).data.head? = some 'L' := by
  obtain ⟨pd⟩ := p
  rfl

theorem countLinesIfText_isSome (content : List Nat) (b : Bool) :
    (countLinesIfText content b).isSome = b := by
  cases b <;> rfl

/-! ## Claims -/

/-- C1: for every file in the content store, `analyze` records a `sha256`
equal to the reference SHA-256 of the exact bytes, and streaming with any
positive chunk size yields the identical digest. -/
theorem claimC1 (env : Env) (st : SimState) (key : String) (content : List Nat) (n : Nat)
    (hk : storeGet st.s3 key = some content) (hn : 0 < n) :
    (mkRecord env st.clock key content).sha256 = sha256RefHex content ∧
    sha256StreamHex n content = sha256RefHex content ∧
    lambdaFileAnalyzer env (mkEvent key) st =
      .ok ({ statusCode := 200,
             body := jsonDumps (recordToJObj (mkRecord env st.clock key content)) },
           { s3 := st.s3,
             db := .ok (readDb st.db ++ [mkRecord env st.clock key content]),
             clock := st.clock + 1 }) :=
  ⟨pySha256Hex_eq content, sha256StreamHex_eq n hn content, lambdaSuccess env st key content hk⟩

/-- C1 witness at `a.txt ↦ "abc"`, chunk size 3. -/
theorem claimC1_witness :
    storeGet stDemo.s3 "a.txt" = some abcBytes ∧ 0 < 3 ∧
    ((mkRecord envDemo stDemo.clock "a.txt" abcBytes).sha256 = sha256RefHex abcBytes ∧
     sha256StreamHex 3 abcBytes = sha256RefHex abcBytes ∧
     lambdaFileAnalyzer envDemo (mkEvent "a.txt") stDemo =
       .ok ({ statusCode := 200,
              body := jsonDumps (recordToJObj (mkRecord envDemo stDemo.clock "a.txt" abcBytes)) },
            { s3 := stDemo.s3,
              db := .ok (readDb stDemo.db ++ [mkRecord envDemo stDemo.clock "a.txt" abcBytes]),
              clock := stDemo.clock + 1 })) :=
  ⟨rfl, by decide, claimC1 envDemo stDemo "a.txt" abcBytes 3 rfl (by decide)⟩

/-- C2 counterexample: on a successful analysis the record store does not
stay unchanged — `lambda_file_analyzer` itself appends the record. -/
theorem claimC2_counterexample :
    storeGet stDemo.s3 "a.txt" = some abcBytes ∧
    resultDb (lambdaFileAnalyzer envDemo (mkEvent "a.txt") stDemo) ≠ some (readDb stDemo.db) := by
  refine ⟨rfl, ?_⟩
  decide

/-- C2 (amended): on success `lambda_file_analyzer` returns the completed
record (code 200, record in the body) and itself appends exactly that record
to the record store; the calling pipeline `api_upload` performs no further
persistence — its total record-store effect is that single append. -/
theorem claimC2 (env : Env) (st : SimState) (key : String) (content : List Nat)
    (fs : Store) (p : String) (c : List Nat)
    (hk : storeGet st.s3 key = some content) (hp : storeGet fs p = some c) :
    resultCode (lambdaFileAnalyzer env (mkEvent key) st) = some 200 ∧
    resultBody (lambdaFileAnalyzer env (mkEvent key) st) =
      some (jsonDumps (recordToJObj (mkRecord env st.clock key content))) ∧
    resultDb (lambdaFileAnalyzer env (mkEvent key) st) =
      some (readDb st.db ++ [mkRecord env st.clock key content]) ∧
    resultDb (apiUpload env fs p st) =
      some (readDb st.db ++ [mkRecord env st.clock (pyName p) c]) := by
  have h1 := lambdaSuccess env st key content hk
  have h2 := apiUploadSuccessEq env fs p c st hp
  exact ⟨by rw [h1]; rfl, by rw [h1]; rfl, by rw [h1]; rfl, by rw [h2]; rfl⟩

/-- C2 witness at `a.txt ↦ "abc"` and source `dir/a.txt`. -/
theorem claimC2_witness :
    storeGet stDemo.s3 "a.txt" = some abcBytes ∧
    storeGet fsDemo "dir/a.txt" = some [104, 105, 10] ∧
    (resultCode (lambdaFileAnalyzer envDemo (mkEvent "a.txt") stDemo) = some 200 ∧
     resultBody (lambdaFileAnalyzer envDemo (mkEvent "a.txt") stDemo) =
       some (jsonDumps (recordToJObj (mkRecord envDemo stDemo.clock "a.txt" abcBytes))) ∧
     resultDb (lambdaFileAnalyzer envDemo (mkEvent "a.txt") stDemo) =
       some (readDb stDemo.db ++ [mkRecord envDemo stDemo.clock "a.txt" abcBytes]) ∧
     resultDb (apiUpload envDemo fsDemo "dir/a.txt" stDemo) =
       some (readDb stDemo.db ++ [mkRecord envDemo stDemo.clock (pyName "dir/a.txt") [104, 105, 10]])) :=
  ⟨rfl, rfl, claimC2 envDemo stDemo "a.txt" abcBytes fsDemo "dir/a.txt" [104, 105, 10] rfl rfl⟩

/-- C3 counterexample: for `a.txt ↦ "ab"` the code records `line_count = 1`
while the content has zero newline-terminated segments. -/
theorem claimC3_counterexample :
    pySuffix "a.txt" ∈ TEXT_EXTS ∧
    storeGet stAB.s3 "a.txt" = some [97, 98] ∧
    (mkRecord envDemo 0 "a.txt" [97, 98]).line_count = some 1 ∧
    newlineSegments [97, 98] = 0 ∧
    (mkRecord envDemo 0 "a.txt" [97, 98]).line_count ≠ some (newlineSegments [97, 98]) := by
  decide

/-- C3 (amended): for a key whose extension is in the allow-list, the
recorded `line_count` is non-null and equals the number of newline-terminated
segments of the tolerantly-decoded content, plus one when a final segment is
not newline-terminated (standard text-mode line splitting with universal
newlines). -/
theorem claimC3 (env : Env) (st : SimState) (key : String) (content : List Nat)
    (hk : storeGet st.s3 key = some content) (hext : pySuffix key ∈ TEXT_EXTS) :
    (mkRecord env st.clock key content).line_count =
      some (newlineSegments content + trailingLineBit content) ∧
    resultDb (lambdaFileAnalyzer env (mkEvent key) st) =
      some (readDb st.db ++ [mkRecord env st.clock key content]) := by
  constructor
  · have hlow : lowerString (pySuffix key) = pySuffix key := textExts_lower _ hext
    have htext : looksLikeText key (pyOr (env.mimeGuess key)) = true := by
      rw [looksLikeText_iff key _ (pyOr_ne_empty _)]
      refine Or.inr ?_
      rw [hlow]
      exact hext
    show countLinesIfText content (looksLikeText key (pyOr (env.mimeGuess key))) = _
    rw [htext]
    unfold countLinesIfText
    rw [if_pos rfl, pyCountLines_eq]
  · rw [lambdaSuccess env st key content hk]
    rfl

/-- C3 witness at `a.txt ↦ "abc"` (one unterminated line). -/
theorem claimC3_witness :
    storeGet stDemo.s3 "a.txt" = some abcBytes ∧ pySuffix "a.txt" ∈ TEXT_EXTS ∧
    ((mkRecord envDemo stDemo.clock "a.txt" abcBytes).line_count =
       some (newlineSegments abcBytes + trailingLineBit abcBytes) ∧
     resultDb (lambdaFileAnalyzer envDemo (mkEvent "a.txt") stDemo) =
       some (readDb stDemo.db ++ [mkRecord envDemo stDemo.clock "a.txt" abcBytes])) :=
  ⟨rfl, by decide, claimC3 envDemo stDemo "a.txt" abcBytes rfl (by decide)⟩

/-- C4 counterexample: `A.JSON` has a line count (the code lowercases the
extension) although its guessed type `application/json` does not start with
`text/` and `.JSON` is not literally in the allow-list, so the claimed
if-and-only-if fails. -/
theorem claimC4_counterexample :
    storeGet stAJ.s3 "A.JSON" = some [97] ∧
    (mkRecord envDemo 0 "A.JSON" [97]).line_count.isSome = true ∧
    specTextLike envDemo "A.JSON" = false ∧
    ¬ ((mkRecord envDemo 0 "A.JSON" [97]).line_count.isSome = true ↔
        specTextLike envDemo "A.JSON" = true) := by
  decide

/-- C4 (amended): `line_count` is present exactly when the defaulted guessed
type starts with `text/` or the lowercased extension is in the allow-list;
in particular it is null when the type is not `text/`-family and the
lowercased extension is outside the allow-list. -/
theorem claimC4 (env : Env) (st : SimState) (key : String) (content : List Nat)
    (hk : storeGet st.s3 key = some content) :
    ((mkRecord env st.clock key content).line_count.isSome = true ↔
      (strStartsWith (pyOr (env.mimeGuess key)) "text/" = true ∨
       lowerString (pySuffix key) ∈ TEXT_EXTS)) ∧
    (strStartsWith (pyOr (env.mimeGuess key)) "text/" = false →
      lowerString (pySuffix key) ∉ TEXT_EXTS →
      (mkRecord env st.clock key content).line_count = Option.none) ∧
    resultDb (lambdaFileAnalyzer env (mkEvent key) st) =
      some (readDb st.db ++ [mkRecord env st.clock key content]) := by
  have hmain : (mkRecord env st.clock key content).line_count =
      countLinesIfText content (looksLikeText key (pyOr (env.mimeGuess key))) := rfl
  have hiff := looksLikeText_iff key (pyOr (env.mimeGuess key)) (pyOr_ne_empty _)
  refine ⟨?_, ?_, ?_⟩
  · rw [hmain, countLinesIfText_isSome]
    exact hiff
  · intro h1 h2
    have hfalse : looksLikeText key (pyOr (env.mimeGuess key)) = false := by
      cases hl : looksLikeText key (pyOr (env.mimeGuess key)) with
      | false => rfl
      | true =>
          rcases hiff.mp hl with h | h
          · rw [h1] at h
            exact absurd h (by decide)
          · exact absurd h h2
    rw [hmain, hfalse]
    rfl
  · rw [lambdaSuccess env st key content hk]
    rfl

/-- C4 witness at `a.txt ↦ "abc"`. -/
theorem claimC4_witness :
    storeGet stDemo.s3 "a.txt" = some abcBytes ∧
    (((mkRecord envDemo stDemo.clock "a.txt" abcBytes).line_count.isSome = true ↔
       (strStartsWith (pyOr (envDemo.mimeGuess "a.txt")) "text/" = true ∨
        lowerString (pySuffix "a.txt") ∈ TEXT_EXTS)) ∧
     (strStartsWith (pyOr (envDemo.mimeGuess "a.txt")) "text/" = false →
       lowerString (pySuffix "a.txt") ∉ TEXT_EXTS →
       (mkRecord envDemo stDemo.clock "a.txt" abcBytes).line_count = Option.none) ∧
     resultDb (lambdaFileAnalyzer envDemo (mkEvent "a.txt") stDemo) =
       some (readDb stDemo.db ++ [mkRecord envDemo stDemo.clock "a.txt" abcBytes])) :=
  ⟨rfl, claimC4 envDemo stDemo "a.txt" abcBytes rfl⟩

/-- C5: analysis of a key absent from the content store returns a structured
404 result with the error body and leaves the whole state, in particular the
record store, exactly unchanged. -/
theorem claimC5 (env : Env) (st : SimState) (key : String)
    (hk : storeGet st.s3 key = Option.none) :
    lambdaFileAnalyzer env (mkEvent key) st =
      .ok ({ statusCode := 404,
             body := jsonDumps [("error", .str "File not found"), ("key", .str key)] }, st) ∧
    resultDb (lambdaFileAnalyzer env (mkEvent key) st) = some (readDb st.db) ∧
    resultS3 (lambdaFileAnalyzer env (mkEvent key) st) = some st.s3 := by
  have h := lambdaNotFound env st key hk
  exact ⟨h, by rw [h]; rfl, by rw [h]; rfl⟩

/-- C5 witness at the never-stored key `nope.bin`. -/
theorem claimC5_witness :
    storeGet stDemo.s3 "nope.bin" = Option.none ∧
    (lambdaFileAnalyzer envDemo (mkEvent "nope.bin") stDemo =
       .ok ({ statusCode := 404,
              body := jsonDumps [("error", .str "File not found"), ("key", .str "nope.bin")] },
            stDemo) ∧
     resultDb (lambdaFileAnalyzer envDemo (mkEvent "nope.bin") stDemo) = some (readDb stDemo.db) ∧
     resultS3 (lambdaFileAnalyzer envDemo (mkEvent "nope.bin") stDemo) = some stDemo.s3) :=
  ⟨rfl, claimC5 envDemo stDemo "nope.bin" rfl⟩

set_option maxRecDepth 8192 in
/-- C6 counterexample: the absent sample source path is recreated by
`ensure_dirs` inside `api_upload` before the existence check, so its upload
returns 200, stores an object under `example.txt` and appends a record,
although the source path did not exist at call time. -/
theorem claimC6_counterexample :
    storeGet ([] : Store) samplePath = Option.none ∧
    resultCode (apiUpload envDemo [] samplePath stEmpty) = some 200 ∧
    resultS3 (apiUpload envDemo [] samplePath stEmpty) =
      some [("example.txt", sampleContent)] ∧
    resultDb (apiUpload envDemo [] samplePath stEmpty) =
      some [mkRecord envDemo 0 "example.txt" sampleContent] ∧
    resultDb (apiUpload envDemo [] samplePath stEmpty) ≠ some (readDb stEmpty.db) := by
  decide

/-- C6 (amended): for every source path that does not exist and is not the
sample path `ensure_dirs` seeds (`sample_files/example.txt`, which an upload
recreates and then processes), upload returns a 400 result, stores nothing
(the uploads store is unchanged, so `ContentStore.put` never ran) and
appends no record. -/
theorem claimC6 (env : Env) (fs : Store) (p : String) (st : SimState)
    (hp : storeGet fs p = Option.none) (hps : p ≠ samplePath) :
    apiUpload env fs p st =
      .ok ({ statusCode := 400, body := "Local file not found: " ++ p }, ensureDirs st) ∧
    resultS3 (apiUpload env fs p st) = some st.s3 ∧
    resultDb (apiUpload env fs p st) = some (readDb st.db) := by
  have h := apiUploadMissing env fs p st (ensureFs_none fs p hp hps)
  refine ⟨h, ?_, ?_⟩
  · rw [h]
    show some (ensureDirs st).s3 = some st.s3
    rw [ensureDirs_s3]
  · rw [h]
    show some (readDb (ensureDirs st).db) = some (readDb st.db)
    rw [readDb_ensureDirs]

/-- C6 witness at the missing source path `missing.bin`. -/
theorem claimC6_witness :
    storeGet fsDemo "missing.bin" = Option.none ∧
    "missing.bin" ≠ samplePath ∧
    (apiUpload envDemo fsDemo "missing.bin" stDemo =
       .ok ({ statusCode := 400, body := "Local file not found: " ++ "missing.bin" },
            ensureDirs stDemo) ∧
     resultS3 (apiUpload envDemo fsDemo "missing.bin" stDemo) = some stDemo.s3 ∧
     resultDb (apiUpload envDemo fsDemo "missing.bin" stDemo) = some (readDb stDemo.db)) :=
  ⟨rfl, by decide, claimC6 envDemo fsDemo "missing.bin" stDemo rfl (by decide)⟩

/-- C7: the claim fails on the code.  On every record-store state except a
file parsing to a non-array JSON value, the append is total: a missing,
unreadable or unparseable store reads as the empty sequence and appending
yields the old contents plus the new record (so appending to such a corrupt
store yields exactly the one-element sequence).  But when the file's text is
valid JSON that is not an array — a corrupt state the claim's `every record
store state` covers — `read_db`'s bare `except` returns that value as-is and
`items.append` raises an uncaught `AttributeError`, failing the caller. -/
theorem claimC7 (db : DbFileContent) (r : AnalysisRecord)
    (hdb : db ≠ DbFileContent.jsonNonArray) :
    dynamodbPutItemFull r db = .ok (DbFileContent.jsonArray (readListD db ++ [r])) ∧
    readDbFull DbFileContent.unparseable = PyJsonValue.arr [] ∧
    readDbFull DbFileContent.missing = PyJsonValue.arr [] ∧
    dynamodbPutItemFull r DbFileContent.unparseable = .ok (DbFileContent.jsonArray [r]) ∧
    dynamodbPutItemFull r DbFileContent.jsonNonArray =
      .error "AttributeError: object has no attribute append" := by
  refine ⟨?_, rfl, rfl, rfl, rfl⟩
  cases db with
  | missing => rfl
  | unparseable => rfl
  | jsonNonArray => exact absurd rfl hdb
  | jsonArray items => rfl

/-- C7 witness at an unparseable store and a concrete record. -/
theorem claimC7_witness :
    DbFileContent.unparseable ≠ DbFileContent.jsonNonArray ∧
    (dynamodbPutItemFull (mkRecord envDemo 0 "a.txt" abcBytes) DbFileContent.unparseable =
       .ok (DbFileContent.jsonArray
         (readListD DbFileContent.unparseable ++ [mkRecord envDemo 0 "a.txt" abcBytes])) ∧
     readDbFull DbFileContent.unparseable = PyJsonValue.arr [] ∧
     readDbFull DbFileContent.missing = PyJsonValue.arr [] ∧
     dynamodbPutItemFull (mkRecord envDemo 0 "a.txt" abcBytes) DbFileContent.unparseable =
       .ok (DbFileContent.jsonArray [mkRecord envDemo 0 "a.txt" abcBytes]) ∧
     dynamodbPutItemFull (mkRecord envDemo 0 "a.txt" abcBytes) DbFileContent.jsonNonArray =
       .error "AttributeError: object has no attribute append") :=
  ⟨by decide, claimC7 DbFileContent.unparseable (mkRecord envDemo 0 "a.txt" abcBytes) (by decide)⟩

/-- C8: starting from an empty record store, uploading N existing files with
distinct base names yields exactly the N expected records in call order. -/
theorem claimC8 (env : Env) (fs : Store) (paths : List String) (st : SimState)
    (hex : ∀ p ∈ paths, (storeGet fs p).isSome = true)
    (hdb : readDb st.db = [])
    (_hnames : (paths.map pyName).Nodup) :
    readDb (runUploads env fs paths st).db = expectedRecords env fs paths st.clock ∧
    (expectedRecords env fs paths st.clock).length = paths.length := by
  refine ⟨?_, expectedRecords_length env fs paths st.clock⟩
  rw [runUploads_db env fs paths st hex, hdb]
  simp

/-- C8 witness: two uploads on two distinct existing filenames. -/
theorem claimC8_witness :
    (∀ p ∈ ["dir/a.txt", "b.bin"], (storeGet fsDemo p).isSome = true) ∧
    readDb stEmpty.db = [] ∧
    ((["dir/a.txt", "b.bin"].map pyName).Nodup) ∧
    (readDb (runUploads envDemo fsDemo ["dir/a.txt", "b.bin"] stEmpty).db =
       expectedRecords envDemo fsDemo ["dir/a.txt", "b.bin"] stEmpty.clock ∧
     (expectedRecords envDemo fsDemo ["dir/a.txt", "b.bin"] stEmpty.clock).length =
       (["dir/a.txt", "b.bin"] : List String).length) :=
  ⟨by decide, rfl, by decide,
   claimC8 envDemo fsDemo ["dir/a.txt", "b.bin"] stEmpty (by decide) rfl (by decide)⟩

/-- C9 counterexample: the missing-upload-source failure returns status 400
but its body is the plain text `Local file not found: ...`, which is not the
serialization of any JSON object. -/
theorem claimC9_counterexample :
    resultCode (apiUpload envDemo fsDemo "missing.bin" stDemo) = some 400 ∧
    resultBody (apiUpload envDemo fsDemo "missing.bin" stDemo) =
      some ("Local file not found: " ++ "missing.bin") ∧
    ¬ isSerializedJObj ("Local file not found: " ++ "missing.bin") := by
  refine ⟨rfl, rfl, ?_⟩
  rintro ⟨o, ho⟩
  have hhead := jsonDumps_head o
  rw [ho, plainBody_head "missing.bin"] at hhead
  exact absurd hhead (by decide)

/-- C9 (amended): failures are returned as structured envelopes — 400 with
an error-JSON body for an event lacking the key path, 404 with an error-JSON
body for a missing object, and 400 with a plain-text (non-JSON) message body
for a missing upload source other than the sample path `ensure_dirs`
reseeds; success is 200 with the record serialized as JSON.  (An event whose
key path yields a non-string value instead raises an uncaught fault, and an
upload of the absent sample path succeeds after reseeding; both are outside
this guarantee.) -/
theorem claimC9 (env : Env) (ev : PyVal) (st : SimState) (key : String)
    (fs : Store) (p pGood : String) (c : List Nat) (stG : SimState)
    (hev : extractRecordKey ev = Option.none)
    (hkey : storeGet st.s3 key = Option.none)
    (hp : storeGet fs p = Option.none)
    (hpn : p ≠ samplePath)
    (hpg : storeGet fs pGood = some c) :
    resultCode (lambdaFileAnalyzer env ev st) = some 400 ∧
    resultBody (lambdaFileAnalyzer env ev st) =
      some (jsonDumps [("error", .str "Malformed event")]) ∧
    isSerializedJObj (jsonDumps [("error", JVal.str "Malformed event")]) ∧
    resultCode (lambdaFileAnalyzer env (mkEvent key) st) = some 404 ∧
    resultBody (lambdaFileAnalyzer env (mkEvent key) st) =
      some (jsonDumps [("error", .str "File not found"), ("key", .str key)]) ∧
    resultCode (apiUpload env fs p st) = some 400 ∧
    resultBody (apiUpload env fs p st) = some ("Local file not found: " ++ p) ∧
    ¬ isSerializedJObj ("Local file not found: " ++ p) ∧
    resultCode (apiUpload env fs pGood stG) = some 200 ∧
    resultBody (apiUpload env fs pGood stG) =
      some (jsonDumps (recordToJObj (mkRecord env stG.clock (pyName pGood) c))) := by
  have h1 := lambdaMalformed env ev st hev
  have h2 := lambdaNotFound env st key hkey
  have h3 := apiUploadMissing env fs p st (ensureFs_none fs p hp hpn)
  have h4 := apiUploadSuccessEq env fs pGood c stG hpg
  refine ⟨by rw [h1]; rfl, by rw [h1]; rfl, ⟨[("error", JVal.str "Malformed event")], rfl⟩,
          by rw [h2]; rfl, by rw [h2]; rfl, by rw [h3]; rfl, by rw [h3]; rfl, ?_,
          by rw [h4]; rfl, by rw [h4]; rfl⟩
  rintro ⟨o, ho⟩
  have hhead := jsonDumps_head o
  rw [ho, plainBody_head p] at hhead
  exact absurd hhead (by decide)

/-- C9 witness: one concrete instance of each failure shape and one success. -/
theorem claimC9_witness :
    extractRecordKey (PyVal.dict []) = Option.none ∧
    storeGet stDemo.s3 "nope.bin" = Option.none ∧
    storeGet fsDemo "missing.bin" = Option.none ∧
    "missing.bin" ≠ samplePath ∧
    storeGet fsDemo "b.bin" = some [0, 255] ∧
    (resultCode (lambdaFileAnalyzer envDemo (PyVal.dict []) stDemo) = some 400 ∧
     resultBody (lambdaFileAnalyzer envDemo (PyVal.dict []) stDemo) =
       some (jsonDumps [("error", .str "Malformed event")]) ∧
     isSerializedJObj (jsonDumps [("error", JVal.str "Malformed event")]) ∧
     resultCode (lambdaFileAnalyzer envDemo (mkEvent "nope.bin") stDemo) = some 404 ∧
     resultBody (lambdaFileAnalyzer envDemo (mkEvent "nope.bin") stDemo) =
       some (jsonDumps [("error", .str "File not found"), ("key", .str "nope.bin")]) ∧
     resultCode (apiUpload envDemo fsDemo "missing.bin" stDemo) = some 400 ∧
     resultBody (apiUpload envDemo fsDemo "missing.bin" stDemo) =
       some ("Local file not found: " ++ "missing.bin") ∧
     ¬ isSerializedJObj ("Local file not found: " ++ "missing.bin") ∧
     resultCode (apiUpload envDemo fsDemo "b.bin" stDemo) = some 200 ∧
     resultBody (apiUpload envDemo fsDemo "b.bin" stDemo) =
       some (jsonDumps (recordToJObj (mkRecord envDemo stDemo.clock (pyName "b.bin") [0, 255])))) :=
  ⟨rfl, rfl, rfl, by decide, rfl,
   claimC9 envDemo (PyVal.dict []) stDemo "nope.bin" fsDemo "missing.bin" "b.bin" [0, 255]
     stDemo rfl rfl rfl (by decide) rfl⟩

/-- C10: a stored object whose extension matches an allow-list entry up to
ASCII case is classified text-like (the extension is lowercased before the
membership test) and gets a line-count attempt. -/
theorem claimC10 (env : Env) (st : SimState) (key : String) (content : List Nat)
    (hk : storeGet st.s3 key = some content)
    (hext : lowerString (pySuffix key) ∈ TEXT_EXTS) :
    looksLikeText key (pyOr (env.mimeGuess key)) = true ∧
    (mkRecord env st.clock key content).line_count.isSome = true ∧
    resultCode (lambdaFileAnalyzer env (mkEvent key) st) = some 200 := by
  have htext : looksLikeText key (pyOr (env.mimeGuess key)) = true :=
    (looksLikeText_iff key _ (pyOr_ne_empty _)).mpr (Or.inr hext)
  refine ⟨htext, ?_, ?_⟩
  · show (countLinesIfText content (looksLikeText key (pyOr (env.mimeGuess key)))).isSome = true
    rw [countLinesIfText_isSome, htext]
  · rw [lambdaSuccess env st key content hk]
    rfl

/-- C10 witness at `b.TXT ↦ "h\n"`. -/
theorem claimC10_witness :
    storeGet stTXT.s3 "b.TXT" = some [104, 10] ∧
    lowerString (pySuffix "b.TXT") ∈ TEXT_EXTS ∧
    (looksLikeText "b.TXT" (pyOr (envDemo.mimeGuess "b.TXT")) = true ∧
     (mkRecord envDemo stTXT.clock "b.TXT" [104, 10]).line_count.isSome = true ∧
     resultCode (lambdaFileAnalyzer envDemo (mkEvent "b.TXT") stTXT) = some 200) :=
  ⟨rfl, by decide, claimC10 envDemo stTXT "b.TXT" [104, 10] rfl (by decide)⟩

end CloudSim
